import Mathlib

/-!
Verification of the COSTS sliding-window DMD pipeline (`pydmd/costs.py`):
window planning, eigenvalue-seed initialization, per-window result storage,
eigenvalue transformation and clustering, overlap-add reconstruction, and
xarray round-trip serialization.  Machine floating-point arithmetic on
integral quantities is embedded as exact rational arithmetic with explicit
floors; complex results are embedded as pairs of rationals; fallible code
returns `Except`.
-/

/-- A complex number with rational components, standing for the
`numpy.complex128` entries of the fit result arrays. -/
structure GaussQ where
  re : ℚ
  im : ℚ
  deriving DecidableEq

/-- The all-zero complex entry used to pre-allocate the result arrays. -/
def gq_zero : GaussQ := ⟨0, 0⟩

/-! ## Window planner (`_build_windows`, the slide-count logic in `fit`,
and `get_window_indices`) -/

/-- From `COSTS._build_windows` (with the default `integer_windows=False`,
as `fit` calls it): `n_split = T / L` (true division), `n_steps =
int(L * n_split)`, and the returned count is
`floor((n_steps - L) / S) + 1`. -/
def build_windows (T L S : ℕ) : ℤ :=
  ⌊(((⌊(L : ℚ) * ((T : ℚ) / (L : ℚ))⌋ : ℤ) : ℚ) - (L : ℚ)) / (S : ℚ)⌋ + 1

/-- The slide count and the non-integer-last-slide flag produced by `fit`. -/
structure WindowPlan where
  nSlides : ℤ
  nonIntegerNSlide : Bool
  deriving DecidableEq

/-- The window-planning part of `COSTS.fit`: take the count from
`_build_windows`; if `T - (S*(n_slides - 1) + L) > 0`, append one extra
slide and set `non_integer_n_slide`. -/
def plan_windows (T L S : ℕ) : WindowPlan :=
  if 0 < (T : ℤ) - ((S : ℤ) * (build_windows T L S - 1) + (L : ℤ))
  then ⟨build_windows T L S + 1, true⟩
  else ⟨build_windows T L S, false⟩

/-- The final slide count as a natural number. -/
def n_slides_nat (T L S : ℕ) : ℕ := (plan_windows T L S).nSlides.toNat

/-- From `COSTS.get_window_indices`: slide `k` selects the half-open index
range `[S*k, S*k + L)`, except that the last slide of a non-integer plan
selects `slice(-L, None)`, i.e. the final `L` indices `[T - L, T)` of a
length-`T` time axis. -/
def get_window_indices (S L n_slides : ℕ) (non_integer : Bool) (T k : ℕ) :
    ℕ × ℕ :=
  if k = n_slides - 1 ∧ non_integer = true then (T - L, T)
  else (S * k, S * k + L)

lemma build_windows_eq {T L S : ℕ} (hL : 0 < L) (hLT : L ≤ T) :
    build_windows T L S = ((T - L) / S : ℕ) + 1 := by
  unfold build_windows
  have hL0 : (L : ℚ) ≠ 0 := by positivity
  have hsteps : (L : ℚ) * ((T : ℚ) / (L : ℚ)) = (T : ℚ) := by
    rw [mul_comm, div_mul_cancel₀ _ hL0]
  rw [hsteps, Int.floor_natCast]
  have hsub : ((T : ℤ) : ℚ) - (L : ℚ) = ((T - L : ℕ) : ℚ) := by
    push_cast [Nat.cast_sub hLT]; ring
  rw [hsub, Rat.floor_natCast_div_natCast]
  norm_cast

lemma plan_windows_char {T L S : ℕ} (hL : 0 < L) (hLT : L ≤ T) :
    plan_windows T L S =
      ⟨((T - L) / S + 1 : ℕ) + (if (T - L) % S = 0 then 0 else 1),
        decide ((T - L) % S ≠ 0)⟩ := by
  unfold plan_windows
  rw [build_windows_eq hL hLT]
  have key : S * ((T - L) / S) + (T - L) % S = T - L := Nat.div_add_mod _ _
  have hrem : (T : ℤ) - ((S : ℤ) * ((((T - L) / S : ℕ) : ℤ) + 1 - 1) + (L : ℤ))
      = ((T - L) % S : ℕ) := by
    have h1 : (((T - L) / S : ℕ) : ℤ) + 1 - 1 = (((T - L) / S : ℕ) : ℤ) := by
      ring
    rw [h1]
    omega
  rw [hrem]
  by_cases h0 : (T - L) % S = 0
  · have hnot : ¬ (0 : ℤ) < ((T - L) % S : ℕ) := by omega
    rw [if_neg hnot]
    simp only [WindowPlan.mk.injEq]
    refine ⟨?_, by simp [h0]⟩
    have h1 : (if (T - L) % S = 0 then (0 : ℤ) else 1) = 0 := by simp [h0]
    rw [h1]
    push_cast
    ring
  · have : (0 : ℤ) < ((T - L) % S : ℕ) := by
      have := Nat.pos_of_ne_zero h0
      omega
    rw [if_pos this]
    simp only [WindowPlan.mk.injEq]
    refine ⟨?_, by simp [h0]⟩
    have h1 : (if (T - L) % S = 0 then (0 : ℤ) else 1) = 1 := by simp [h0]
    rw [h1]
    push_cast
    ring

lemma n_slides_nat_eq {T L S : ℕ} (hL : 0 < L) (hLT : L ≤ T) :
    n_slides_nat T L S =
      (T - L) / S + 1 + (if (T - L) % S = 0 then 0 else 1) := by
  unfold n_slides_nat
  rw [plan_windows_char hL hLT]
  show ((((T - L) / S + 1 : ℕ) : ℤ) +
      (if (T - L) % S = 0 then (0 : ℤ) else 1)).toNat
      = (T - L) / S + 1 + (if (T - L) % S = 0 then 0 else 1)
  have hq : (0 : ℤ) ≤ ((T - L : ℕ) : ℤ) / ((S : ℕ) : ℤ) :=
    Int.ediv_nonneg (Int.natCast_nonneg _) (Int.natCast_nonneg _)
  by_cases h0 : (T - L) % S = 0
  · rw [if_pos h0, if_pos h0]
    omega
  · rw [if_neg h0, if_neg h0]
    omega

lemma non_integer_iff {T L S : ℕ} (hL : 0 < L) (hLT : L ≤ T) :
    (plan_windows T L S).nonIntegerNSlide = true ↔ (T - L) % S ≠ 0 := by
  rw [plan_windows_char hL hLT]
  simp

/-- Claim C2: for input with `T` time steps, window length `L ≤ T` and step
`S`, `fit` computes the slide count as `floor((n_steps - L)/S) + 1` with
`n_steps = L * n_split`, `n_split = T / L` (exactly `floor((T-L)/S) + 1`),
then appends exactly one extra slide and sets `non_integer_n_slide = true`
if and only if `T - (S*(n_slides-1) + L) > 0`; for `T=200, L=40, S=10`
this gives 17 slides with the flag off. -/
theorem claim_C2 (T L S : ℕ) (hL : 0 < L) (_hS : 0 < S) (hLT : L ≤ T) :
    build_windows T L S = ((T - L) / S : ℕ) + 1 ∧
    (plan_windows T L S).nSlides =
      build_windows T L S +
        (if 0 < (T : ℤ) - ((S : ℤ) * (build_windows T L S - 1) + (L : ℤ))
          then 1 else 0) ∧
    ((plan_windows T L S).nonIntegerNSlide = true ↔
      0 < (T : ℤ) - ((S : ℤ) * (build_windows T L S - 1) + (L : ℤ))) ∧
    plan_windows 200 40 10 = ⟨17, false⟩ := by
  refine ⟨build_windows_eq hL hLT, ?_, ?_, ?_⟩
  · unfold plan_windows
    by_cases h : 0 < (T : ℤ) - ((S : ℤ) * (build_windows T L S - 1) + (L : ℤ))
    · simp [h]
    · simp [h]
  · unfold plan_windows
    by_cases h : 0 < (T : ℤ) - ((S : ℤ) * (build_windows T L S - 1) + (L : ℤ))
    · simp [h]
    · simp [h]
  · rw [plan_windows_char (T := 200) (L := 40) (S := 10) (by norm_num)
      (by norm_num)]
    decide

/-- Witness for claim C2 at `T=200, L=40, S=10`. -/
theorem claim_C2_witness :
    (0 < 40 ∧ 0 < 10 ∧ 40 ≤ 200) ∧
      (build_windows 200 40 10 = ((200 - 40) / 10 : ℕ) + 1 ∧
        (plan_windows 200 40 10).nSlides =
          build_windows 200 40 10 +
            (if 0 < (200 : ℤ) -
                ((10 : ℤ) * (build_windows 200 40 10 - 1) + (40 : ℤ))
              then 1 else 0) ∧
        ((plan_windows 200 40 10).nonIntegerNSlide = true ↔
          0 < (200 : ℤ) -
            ((10 : ℤ) * (build_windows 200 40 10 - 1) + (40 : ℤ))) ∧
        plan_windows 200 40 10 = ⟨17, false⟩) :=
  ⟨by norm_num, claim_C2 200 40 10 (by norm_num) (by norm_num) (by norm_num)⟩

lemma step_window_bound {T L S : ℕ} (hLT : L ≤ T) {k : ℕ}
    (hkq : k ≤ (T - L) / S) : S * k + L ≤ T := by
  have h1 : S * k ≤ S * ((T - L) / S) := Nat.mul_le_mul (le_refl S) hkq
  have h2 : S * ((T - L) / S) ≤ T - L := by
    rw [mul_comm]
    exact Nat.div_mul_le_self _ _
  omega

/-- Claim C3: for every slide index `k < n_slides`, `get_window_indices`
returns the step-based range `[S*k, S*k + L)` unless `k` is the last slide
of a non-integer plan, in which case it returns the trailing range
`[T - L, T)`; every returned range lies inside the time axis and has
length `L`.  For `T=95, L=10, S=10` the plan is 10 slides with the
non-integer flag set, and slide 9 selects the final 10 samples. -/
theorem claim_C3 (T L S : ℕ) (hL : 0 < L) (_hS : 0 < S) (hLT : L ≤ T) :
    (∀ k, k < n_slides_nat T L S →
      (¬(k = n_slides_nat T L S - 1 ∧
          (plan_windows T L S).nonIntegerNSlide = true) →
        get_window_indices S L (n_slides_nat T L S)
          (plan_windows T L S).nonIntegerNSlide T k = (S * k, S * k + L)) ∧
      ((k = n_slides_nat T L S - 1 ∧
          (plan_windows T L S).nonIntegerNSlide = true) →
        get_window_indices S L (n_slides_nat T L S)
          (plan_windows T L S).nonIntegerNSlide T k = (T - L, T)) ∧
      (get_window_indices S L (n_slides_nat T L S)
          (plan_windows T L S).nonIntegerNSlide T k).2 ≤ T ∧
      (get_window_indices S L (n_slides_nat T L S)
          (plan_windows T L S).nonIntegerNSlide T k).2 -
        (get_window_indices S L (n_slides_nat T L S)
          (plan_windows T L S).nonIntegerNSlide T k).1 = L) ∧
    plan_windows 95 10 10 = ⟨10, true⟩ ∧
    get_window_indices 10 10 (n_slides_nat 95 10 10)
      (plan_windows 95 10 10).nonIntegerNSlide 95 9 = (95 - 10, 95) := by
  have hns := n_slides_nat_eq (S := S) hL hLT
  have hflag := non_integer_iff (S := S) hL hLT
  have h95p : plan_windows 95 10 10 = ⟨10, true⟩ := by
    rw [plan_windows_char (T := 95) (L := 10) (S := 10) (by norm_num)
      (by norm_num)]
    decide
  have h95n : n_slides_nat 95 10 10 = 10 := by
    rw [n_slides_nat_eq (T := 95) (L := 10) (S := 10) (by norm_num)
      (by norm_num)]
    decide
  refine ⟨?_, h95p, ?_⟩
  · intro k hk
    by_cases hf : (plan_windows T L S).nonIntegerNSlide = true
    · have hr : (T - L) % S ≠ 0 := hflag.mp hf
      have hns2 : n_slides_nat T L S = (T - L) / S + 2 := by
        rw [hns, if_neg hr]
      by_cases hk1 : k = n_slides_nat T L S - 1
      · have hwin : get_window_indices S L (n_slides_nat T L S)
            (plan_windows T L S).nonIntegerNSlide T k = (T - L, T) := by
          unfold get_window_indices
          rw [if_pos ⟨hk1, hf⟩]
        refine ⟨fun hcon => (hcon ⟨hk1, hf⟩).elim, fun _ => hwin,
          ?_, ?_⟩
        · rw [hwin]
        · rw [hwin]
          show T - (T - L) = L
          omega
      · have hkq : k ≤ (T - L) / S := by omega
        have hwin : get_window_indices S L (n_slides_nat T L S)
            (plan_windows T L S).nonIntegerNSlide T k = (S * k, S * k + L) := by
          unfold get_window_indices
          rw [if_neg (fun h => hk1 h.1)]
        refine ⟨fun _ => hwin, fun hcon => (hk1 hcon.1).elim, ?_, ?_⟩
        · rw [hwin]
          exact step_window_bound hLT hkq
        · rw [hwin]
          show S * k + L - S * k = L
          omega
    · have hr : (T - L) % S = 0 := by
        by_contra hc
        exact hf (hflag.mpr hc)
      have hns2 : n_slides_nat T L S = (T - L) / S + 1 := by
        rw [hns, if_pos hr]
      have hkq : k ≤ (T - L) / S := by omega
      have hwin : get_window_indices S L (n_slides_nat T L S)
          (plan_windows T L S).nonIntegerNSlide T k = (S * k, S * k + L) := by
        unfold get_window_indices
        rw [if_neg (fun h => hf h.2)]
      refine ⟨fun _ => hwin, fun hcon => (hf hcon.2).elim, ?_, ?_⟩
      · rw [hwin]
        exact step_window_bound hLT hkq
      · rw [hwin]
        show S * k + L - S * k = L
        omega
  · rw [h95p, h95n]
    decide

/-- Witness for claim C3 at `T=95, L=10, S=10`, slide `k=9`. -/
theorem claim_C3_witness :
    (0 < 10 ∧ 0 < 10 ∧ 10 ≤ 95 ∧ 9 < n_slides_nat 95 10 10) ∧
      get_window_indices 10 10 (n_slides_nat 95 10 10)
        (plan_windows 95 10 10).nonIntegerNSlide 95 9 = (95 - 10, 95) := by
  have h95n : n_slides_nat 95 10 10 = 10 := by
    rw [n_slides_nat_eq (T := 95) (L := 10) (S := 10) (by norm_num)
      (by norm_num)]
    decide
  refine ⟨⟨by norm_num, by norm_num, by norm_num, by rw [h95n]; norm_num⟩, ?_⟩
  exact (claim_C3 95 10 10 (by norm_num) (by norm_num) (by norm_num)).2.2

/-! ## Initialization policy (`_build_initialization`) -/

/-- The cluster-derived eigenvalue seed of `_build_initialization`:
`np.repeat(np.sqrt(cluster_centroids) * 1j, svd_rank // n_components)`
multiplied elementwise by `np.tile([1, -1], svd_rank // n_components)`.
NumPy raises a broadcast error when the two lengths disagree (modelled as
`none`; the singleton-broadcast special case is collapsed into it, as no
claim evaluates this branch). -/
noncomputable def cluster_seed (cs : List ℝ) (reps : ℕ) :
    Option (List Complex) :=
  let rep := (cs.map (fun c => (Real.sqrt c : ℂ) * Complex.I)).flatMap
    (fun z => List.replicate reps z)
  let signs := (List.replicate reps [(1 : ℂ), -1]).flatten
  if rep.length = signs.length then
    some (List.zipWith (fun a b => a * b) rep signs)
  else none

/-- From `COSTS._build_initialization`, branch for branch: if artificial
initialization is on and `init_alpha` was supplied, return it; else if
artificial initialization is on and cluster centroids were supplied, build
the cluster seed; the source then has an unreachable check raising
`ValueError` when both `init_alpha` and `cluster_centroids` are supplied;
otherwise return `None`. -/
noncomputable def build_initialization (init_artificially : Bool)
    (init_alpha : Option (List Complex)) (cluster_centroids : Option (List ℝ))
    (svd_rank n_components : ℕ) : Except String (Option (List Complex)) :=
  if init_artificially && init_alpha.isSome then .ok init_alpha
  else if init_artificially && init_alpha.isNone
      && cluster_centroids.isSome then
    match cluster_seed (cluster_centroids.getD [])
        (svd_rank / n_components) with
    | some seed => .ok (some seed)
    | none => .error "operands could not be broadcast together"
  else if init_artificially && init_alpha.isSome
      && cluster_centroids.isSome then
    .error "Only one of init_alpha and cluster_centroids can be provided"
  else .ok none

/-- Claim C1 (code bug): with `initialize_artificially` on and BOTH a
user-supplied `init_alpha` and `cluster_centroids` present,
`_build_initialization` silently returns the user seed `init_alpha`
instead of raising the `ValueError` whose check is unreachable dead code
(the first branch returns before the both-supplied check is evaluated). -/
theorem claim_C1 (a : List Complex) (cs : List ℝ) (r n : ℕ) :
    build_initialization true (some a) (some cs) r n =
      Except.ok (some a) := rfl

/-! ## Clustering-capability check in `_cluster` -/

/-- Python exceptions relevant to the `_cluster` capability check. -/
inductive PyErr where
  | attributeErr : PyErr
  | valueErr : String → PyErr
  deriving DecidableEq

/-- `getattr(method, "fit_predict")`: raises `AttributeError` when the
attribute is missing. -/
def py_getattr_fit_predict (has_fit_predict : Bool) : Except PyErr Unit :=
  if has_fit_predict then .ok () else .error .attributeErr

/-- From `_cluster`: `if not hasattr(method, "fit_predict") and
callable(getattr(method, "fit_predict")): raise ValueError(...)`.
Python evaluates `not hasattr(...)` first; only when it is true does it
evaluate `callable(getattr(...))`, and `getattr` itself raises
`AttributeError` for the missing attribute before `callable` or the
`raise` statement can run. -/
def cluster_method_check (has_fit_predict callable_fit_predict : Bool) :
    Except PyErr Unit :=
  if !has_fit_predict then
    match py_getattr_fit_predict has_fit_predict with
    | .error e => .error e
    | .ok _ =>
      if callable_fit_predict then
        .error (.valueErr "Clustering method must have fit_predict() method.")
      else .ok ()
  else .ok ()

/-- Claim C9 (code bug): for a clustering method lacking `fit_predict`,
the capability check in `_cluster` fails with `AttributeError` raised by
`getattr`, not with the descriptive `ValueError` (which is unreachable);
for a method that has the attribute, the check passes silently. -/
theorem claim_C9 :
    (∀ c, cluster_method_check false c = Except.error PyErr.attributeErr) ∧
    (∀ c, cluster_method_check true c = Except.ok ()) :=
  ⟨fun _ => rfl, fun _ => rfl⟩

/-! ## Centroid canonicalization in `_cluster`:
`idx = np.argsort(cluster_centroids); lut = zeros; lut[idx] = arange(n);
omega_classes = lut[omega_classes];
cluster_centroids = cluster_centroids[idx]` -/

/-- The comparison relation used to argsort the centroid values. -/
def centroid_le (cs : List ℚ) (i j : Fin cs.length) : Prop :=
  cs.get i ≤ cs.get j

instance (cs : List ℚ) : DecidableRel (centroid_le cs) := fun i j =>
  inferInstanceAs (Decidable (cs.get i ≤ cs.get j))

/-- `np.argsort(cluster_centroids)`: the list of centroid indices ordered
by ascending centroid value. -/
def argsort_idx (cs : List ℚ) : List (Fin cs.length) :=
  List.insertionSort (centroid_le cs) (List.finRange cs.length)

/-- `cluster_centroids[idx]`: the centroids re-ordered ascending. -/
def sorted_centroids (cs : List ℚ) : List ℚ := (argsort_idx cs).map cs.get

lemma argsort_perm (cs : List ℚ) :
    List.Perm (argsort_idx cs) (List.finRange cs.length) :=
  List.perm_insertionSort _ _

lemma mem_argsort (cs : List ℚ) (j : Fin cs.length) : j ∈ argsort_idx cs :=
  (argsort_perm cs).mem_iff.mpr (List.mem_finRange j)

/-- The raw-cluster-id to canonical-band-id lookup table `lut`, determined
by `lut[idx] = np.arange(n_components)`: raw id `j` is sent to the
position of `j` in the argsort order. -/
def lut_fin (cs : List ℚ) (j : Fin cs.length) : Fin cs.length :=
  ⟨(argsort_idx cs).indexOf j, by
    have h := List.indexOf_lt_length.mpr (mem_argsort cs j)
    have hlen : (argsort_idx cs).length = cs.length :=
      (argsort_perm cs).length_eq.trans (List.length_finRange _)
    omega⟩

/-- `lut[omega_classes]` on a flattened class list; raw ids out of range
(impossible for a well-formed clustering) are mapped to 0. -/
def lut_nat (cs : List ℚ) (c : ℕ) : ℕ :=
  if h : c < cs.length then (lut_fin cs ⟨c, h⟩ : ℕ) else 0

lemma sorted_argsort (cs : List ℚ) :
    List.Sorted (centroid_le cs) (argsort_idx cs) := by
  haveI : IsTotal (Fin cs.length) (centroid_le cs) :=
    ⟨fun a b => le_total (cs.get a) (cs.get b)⟩
  haveI : IsTrans (Fin cs.length) (centroid_le cs) :=
    ⟨fun _ _ _ hab hbc => le_trans hab hbc⟩
  exact List.sorted_insertionSort _ _

lemma sorted_centroids_sorted (cs : List ℚ) :
    List.Sorted (· ≤ ·) (sorted_centroids cs) :=
  List.pairwise_map.mpr (sorted_argsort cs)

lemma sorted_centroids_perm (cs : List ℚ) :
    List.Perm (sorted_centroids cs) cs := by
  have h := (argsort_perm cs).map cs.get
  rwa [List.finRange_map_get] at h

lemma lut_fin_injective (cs : List ℚ) : Function.Injective (lut_fin cs) := by
  intro a b hab
  have ha := mem_argsort cs a
  have hb := mem_argsort cs b
  have hidx : (argsort_idx cs).indexOf a = (argsort_idx cs).indexOf b := by
    have h := congrArg Fin.val hab
    simpa [lut_fin] using h
  exact (List.indexOf_inj ha hb).mp hidx

lemma sorted_headI_le {l : List ℚ} (hl : List.Sorted (· ≤ ·) l) {x : ℚ}
    (hx : x ∈ l) : l.headI ≤ x := by
  cases l with
  | nil => cases hx
  | cons a t =>
    rcases List.mem_cons.mp hx with rfl | hxt
    · exact le_refl _
    · exact (List.sorted_cons.mp hl).1 x hxt

lemma headI_mem_of_ne_nil {l : List ℚ} (h : l ≠ []) : l.headI ∈ l := by
  cases l with
  | nil => exact absurd rfl h
  | cons a t => exact List.mem_cons_self a t

/-- Claim C4: after `_cluster`'s canonicalization, the stored centroid list
is sorted non-decreasing, the raw-id-to-canonical-id lookup table is a
bijection on the cluster ids, and band id 0 (the head of the sorted
centroid list) is a centroid and is the smallest centroid. -/
theorem claim_C4 (cs : List ℚ) (h : 0 < cs.length) :
    List.Sorted (· ≤ ·) (sorted_centroids cs) ∧
    Function.Bijective (lut_fin cs) ∧
    (sorted_centroids cs).headI ∈ cs ∧
    ∀ x ∈ cs, (sorted_centroids cs).headI ≤ x := by
  have hlen : (sorted_centroids cs).length = cs.length :=
    (sorted_centroids_perm cs).length_eq
  have hne : sorted_centroids cs ≠ [] := by
    intro hnil
    rw [hnil] at hlen
    simp at hlen
    omega
  refine ⟨sorted_centroids_sorted cs,
    Finite.injective_iff_bijective.mp (lut_fin_injective cs), ?_, ?_⟩
  · exact (sorted_centroids_perm cs).mem_iff.mp (headI_mem_of_ne_nil hne)
  · intro x hx
    exact sorted_headI_le (sorted_centroids_sorted cs)
      ((sorted_centroids_perm cs).mem_iff.mpr hx)

/-- Witness for claim C4 at the centroid list `[3, 1, 2]`. -/
theorem claim_C4_witness :
    0 < ([3, 1, 2] : List ℚ).length ∧
      (List.Sorted (· ≤ ·) (sorted_centroids [3, 1, 2]) ∧
        Function.Bijective (lut_fin ([3, 1, 2] : List ℚ)) ∧
        (sorted_centroids [3, 1, 2]).headI ∈ ([3, 1, 2] : List ℚ) ∧
        ∀ x ∈ ([3, 1, 2] : List ℚ), (sorted_centroids [3, 1, 2]).headI ≤ x) :=
  ⟨by norm_num, claim_C4 [3, 1, 2] (by norm_num)⟩

/-! ## Pre-allocated result arrays in `fit`:
`modes_array[k, :, :rank] = modes; omega_array[k, :rank] = eigs;
amplitudes_array[k, :rank] = amplitudes` over zero-initialized storage. -/

/-- One window's fit result as returned by the external solver: the actual
fitted rank and the mode/eigenvalue/amplitude values per rank slot. -/
structure WinFit where
  rank : ℕ
  modesF : ℕ → (ℕ → GaussQ)
  eigsF : ℕ → GaussQ
  ampsF : ℕ → GaussQ

/-- The slice assignment `arr[k, :r] = v`: row `k` gets `v` on slots
`j < r`, every other entry is unchanged. -/
def slice_write {β : Type} (arr : ℕ → ℕ → β) (k r : ℕ) (v : ℕ → β) :
    ℕ → ℕ → β :=
  fun k2 j => if k2 = k ∧ j < r then v j else arr k2 j

/-- The sliding-window loop writing one `(rank, values)` pair per window
into successive rows starting at row `k`. -/
def fit_loop_aux {β : Type} (arr : ℕ → ℕ → β) (k : ℕ) :
    List (ℕ × (ℕ → β)) → ℕ → ℕ → β
  | [] => arr
  | (r, v) :: rest => fit_loop_aux (slice_write arr k r v) (k + 1) rest

/-- The omega array after `fit`: zero-initialized, then each window `k`
writes its eigenvalues into `omega_array[k, :rank_k]`. -/
def fit_omega_array (results : List WinFit) : ℕ → ℕ → GaussQ :=
  fit_loop_aux (fun _ _ => gq_zero) 0 (results.map fun w => (w.rank, w.eigsF))

/-- The amplitudes array after `fit`, written like the omega array. -/
def fit_amplitudes_array (results : List WinFit) : ℕ → ℕ → GaussQ :=
  fit_loop_aux (fun _ _ => gq_zero) 0 (results.map fun w => (w.rank, w.ampsF))

/-- The modes array after `fit` (row `k`, rank slot `j`, giving the spatial
column vector), written like the omega array via `modes_array[k, :, :r]`. -/
def fit_modes_array (results : List WinFit) : ℕ → ℕ → (ℕ → GaussQ) :=
  fit_loop_aux (fun _ _ => (fun _ => gq_zero)) 0
    (results.map fun w => (w.rank, w.modesF))

lemma fit_loop_aux_untouched {β : Type} (rs : List (ℕ × (ℕ → β)))
    (arr : ℕ → ℕ → β) (k k0 j : ℕ)
    (h : ∀ i, (hi : i < rs.length) → k0 = k + i → (rs.get ⟨i, hi⟩).1 ≤ j) :
    fit_loop_aux arr k rs k0 j = arr k0 j := by
  induction rs generalizing arr k with
  | nil => rfl
  | cons p rest ih =>
    obtain ⟨r, v⟩ := p
    show fit_loop_aux (slice_write arr k r v) (k + 1) rest k0 j = arr k0 j
    rw [ih (slice_write arr k r v) (k + 1) ?_]
    · unfold slice_write
      by_cases hk : k0 = k ∧ j < r
      · have hr := h 0 (by simp) (by omega)
        simp at hr
        omega
      · rw [if_neg hk]
    · intro i hi hki
      have := h (i + 1) (by simpa using Nat.succ_lt_succ hi) (by omega)
      simpa using this

/-- Claim C7: for every window `k` and every pre-allocated rank slot `j`
at or beyond that window's actual fitted rank, the corresponding entries
of the modes, omega and amplitudes arrays are exactly zero. -/
theorem claim_C7 (results : List WinFit) (k : ℕ) (hk : k < results.length)
    (j : ℕ) (hj : (results.get ⟨k, hk⟩).rank ≤ j) :
    fit_omega_array results k j = gq_zero ∧
    fit_amplitudes_array results k j = gq_zero ∧
    ∀ s, fit_modes_array results k j s = gq_zero := by
  have key : ∀ (f : WinFit → ℕ → GaussQ), ∀ i,
      (hi : i < (results.map fun w => (w.rank, f w)).length) → k = 0 + i →
      ((results.map fun w => (w.rank, f w)).get ⟨i, hi⟩).1 ≤ j := by
    intro f i hi hki
    have hieq : i = k := by omega
    subst hieq
    rw [List.get_map]
    simpa using hj
  have keyM : ∀ i,
      (hi : i < (results.map fun w => (w.rank, w.modesF)).length) →
      k = 0 + i →
      ((results.map fun w => (w.rank, w.modesF)).get ⟨i, hi⟩).1 ≤ j := by
    intro i hi hki
    have hieq : i = k := by omega
    subst hieq
    rw [List.get_map]
    simpa using hj
  refine ⟨?_, ?_, ?_⟩
  · exact fit_loop_aux_untouched _ _ 0 k j (key (fun w => w.eigsF))
  · exact fit_loop_aux_untouched _ _ 0 k j (key (fun w => w.ampsF))
  · intro s
    have h := fit_loop_aux_untouched _ (fun _ _ => (fun _ => gq_zero)) 0 k j
      keyM
    exact congrFun (h.trans rfl) s

/-- A concrete single-window fit result used by the claim C7 witness. -/
def wfit_example : WinFit :=
  ⟨1, fun _ _ => ⟨1, 2⟩, fun _ => ⟨3, 4⟩, fun _ => ⟨5, 6⟩⟩

/-- Witness for claim C7: one window of rank 1, slot 1 is zero. -/
theorem claim_C7_witness :
    0 < [wfit_example].length ∧ wfit_example.rank ≤ 1 ∧
      (fit_omega_array [wfit_example] 0 1 = gq_zero ∧
        fit_amplitudes_array [wfit_example] 0 1 = gq_zero ∧
        ∀ s, fit_modes_array [wfit_example] 0 1 s = gq_zero) :=
  ⟨by norm_num, by norm_num [wfit_example],
    claim_C7 [wfit_example] 0 (by norm_num) 1 (by norm_num [wfit_example])⟩

/-! ## `transform_omega`: transformation of the imaginary eigenvalue parts.
IEEE non-finite values (`np.log10(0) = -inf`, `1/0 = inf`) are embedded as
`none`; finite values as `some` of the exact real. -/

/-- The finite value of `np.log10(abs(x))` for nonzero `x`. -/
noncomputable def log10_val (q : ℚ) : ℝ := Real.log |(q : ℝ)| / Real.log 10

/-- `np.log10(np.abs(x))` on one entry: `-inf` (i.e. `none`, a non-finite
IEEE result) at `x = 0`, finite otherwise. -/
noncomputable def np_log10_abs (q : ℚ) : Option ℝ :=
  if q = 0 then none else some (log10_val q)

/-- The `"log10"` branch of `transform_omega`: take `log10(abs(imag))`
entrywise, then impute every non-finite entry with the minimum finite
entry (`omega_transform[np.isfinite(...)].min()`, which raises on an
all-non-finite array). -/
noncomputable def log10_transform (omega : List GaussQ) :
    Except String (List (Option ℝ)) :=
  let raw := omega.map (fun z => np_log10_abs z.im)
  let fins := raw.filterMap id
  if fins.isEmpty then
    Except.error "zero-size array to reduction operation minimum"
  else Except.ok (raw.map (fun o => some (o.getD (fins.minimum.untop' 0))))

/-- `transform_omega`, dispatching on the four supported transform-method
names and raising `ValueError` otherwise.  All transformations apply to
the imaginary component only. -/
noncomputable def transform_omega_vals (method : String)
    (omega : List GaussQ) : Except String (List (Option ℝ)) :=
  if method = "absolute" then
    Except.ok (omega.map (fun z => some |(z.im : ℝ)|))
  else if method = "square_frequencies" then
    Except.ok (omega.map (fun z => some ((z.im : ℝ) ^ 2)))
  else if method = "log10" then log10_transform omega
  else if method = "period" then
    Except.ok (omega.map (fun z =>
      if z.im = 0 then none else some (1 / |(z.im : ℝ)|)))
  else Except.error ("Transform method " ++ method ++ " not supported.")

/-- Claim C8: on an omega array with at least one nonzero imaginary part,
the `"log10"` transform returns `log10(abs(imag))` entrywise with every
non-finite entry replaced by the minimum finite transformed value `m`
(which is itself one of the finite transformed values), so every returned
entry is finite (`some`). -/
theorem claim_C8 (omega : List GaussQ) (h : ∃ z ∈ omega, z.im ≠ 0) :
    ∃ m : ℝ,
      transform_omega_vals "log10" omega =
        Except.ok (omega.map (fun z =>
          if z.im = 0 then some m else some (log10_val z.im))) ∧
      (∃ z ∈ omega, z.im ≠ 0 ∧ m = log10_val z.im) ∧
      (∀ z ∈ omega, z.im ≠ 0 → m ≤ log10_val z.im) := by
  obtain ⟨z0, hz0, hz0im⟩ := h
  have hdispatch : transform_omega_vals "log10" omega =
      log10_transform omega := by
    unfold transform_omega_vals
    rw [if_neg (by decide), if_neg (by decide), if_pos rfl]
  have hmemfins : ∀ z ∈ omega, z.im ≠ 0 →
      log10_val z.im ∈
        (omega.map (fun w => np_log10_abs w.im)).filterMap id := by
    intro z hz hzim
    refine List.mem_filterMap.mpr ⟨some (log10_val z.im), ?_, rfl⟩
    have : np_log10_abs z.im = some (log10_val z.im) := by
      unfold np_log10_abs
      rw [if_neg hzim]
    exact this ▸ List.mem_map_of_mem _ hz
  set fins := (omega.map (fun w => np_log10_abs w.im)).filterMap id with hfins
  have hne : fins ≠ [] :=
    List.ne_nil_of_mem (hmemfins z0 hz0 hz0im)
  obtain ⟨m, hm⟩ := WithTop.ne_top_iff_exists.mp
    (List.minimum_ne_top_of_ne_nil hne)
  have hmin := List.minimum_eq_coe_iff.mp hm.symm
  have huntop : fins.minimum.untop' 0 = m := by
    rw [← hm, WithTop.untop'_coe]
  refine ⟨m, ?_, ?_, ?_⟩
  · rw [hdispatch]
    unfold log10_transform
    rw [if_neg (by
      intro hcontra
      exact hne (List.isEmpty_iff.mp hcontra))]
    rw [← hfins, huntop, List.map_map]
    have hfun : ((fun o : Option ℝ => some (o.getD m)) ∘
        fun z : GaussQ => np_log10_abs z.im) =
        fun z : GaussQ =>
          if z.im = 0 then some m else some (log10_val z.im) :=
      funext fun z => by
        show some ((np_log10_abs z.im).getD m) = _
        unfold np_log10_abs
        by_cases hz : z.im = 0
        · rw [if_pos hz, if_pos hz]
          rfl
        · rw [if_neg hz, if_neg hz]
          rfl
    rw [hfun]
  · have hmmem : m ∈ fins := hmin.1
    obtain ⟨a, ha, hai⟩ := List.mem_filterMap.mp hmmem
    obtain ⟨z, hz, hza⟩ := List.mem_map.mp ha
    refine ⟨z, hz, ?_, ?_⟩
    · intro hziz
      unfold np_log10_abs at hza
      rw [if_pos hziz] at hza
      rw [← hza] at hai
      simp at hai
    · by_cases hziz : z.im = 0
      · unfold np_log10_abs at hza
        rw [if_pos hziz] at hza
        rw [← hza] at hai
        simp at hai
      · unfold np_log10_abs at hza
        rw [if_neg hziz] at hza
        rw [← hza] at hai
        simp at hai
        exact hai.symm
  · intro z hz hzim
    exact hmin.2 _ (hmemfins z hz hzim)

/-- Witness for claim C8 at the one-entry omega array `[0 + 1i]`. -/
theorem claim_C8_witness :
    (∃ z ∈ [(⟨0, 1⟩ : GaussQ)], z.im ≠ 0) ∧
      ∃ m : ℝ,
        transform_omega_vals "log10" [(⟨0, 1⟩ : GaussQ)] =
          Except.ok (([(⟨0, 1⟩ : GaussQ)]).map (fun z =>
            if z.im = 0 then some m else some (log10_val z.im))) ∧
        (∃ z ∈ [(⟨0, 1⟩ : GaussQ)], z.im ≠ 0 ∧ m = log10_val z.im) ∧
        (∀ z ∈ [(⟨0, 1⟩ : GaussQ)], z.im ≠ 0 → m ≤ log10_val z.im) :=
  ⟨by decide, claim_C8 [⟨0, 1⟩] (by decide)⟩

/-! ## Reconstruction kernel (`build_kern`) and the per-time-step
normalization buffer `xn` of `scale_reconstruction` -/

/-- The `direction` argument of `build_kern`: `"forward"`, `"backward"`,
or `None`. -/
inductive KernDirection where
  | forward
  | backward
  | interior
  deriving DecidableEq

/-- The Gaussian filter value
`exp(-((i - (L-1)/2)^2 / sd^2))` with `sd = L / relative_filter_length`
from `build_kern`. -/
noncomputable def recon_gauss (L : ℕ) (relative_filter_length : ℚ)
    (i : ℕ) : ℝ :=
  Real.exp (-(((i : ℝ) - ((L : ℝ) - 1) / 2) ^ 2 /
    ((L : ℝ) / ((relative_filter_length : ℚ) : ℝ)) ^ 2))

/-- From `COSTS.build_kern`: the Gaussian filter of length `L`; with
`direction="forward"` indices from `L // 2` on are forced to 1, with
`"backward"` indices below `L // 2` are forced to 1. -/
noncomputable def build_kern (L : ℕ) (relative_filter_length : ℚ)
    (direction : KernDirection) (i : ℕ) : ℝ :=
  match direction with
  | .forward => if L / 2 ≤ i then 1
      else recon_gauss L relative_filter_length i
  | .backward => if i < L / 2 then 1
      else recon_gauss L relative_filter_length i
  | .interior => recon_gauss L relative_filter_length i

/-- The direction chosen per slide in `scale_reconstruction`: `backward`
for slide 0, `forward` for the last slide, interior otherwise. -/
def slide_direction (k n_slides : ℕ) : KernDirection :=
  if k = 0 then .backward
  else if k = n_slides - 1 then .forward
  else .interior

lemma recon_gauss_pos (L : ℕ) (rl : ℚ) (i : ℕ) : 0 < recon_gauss L rl i :=
  Real.exp_pos _

lemma build_kern_pos (L : ℕ) (rl : ℚ) (d : KernDirection) (i : ℕ) :
    0 < build_kern L rl d i := by
  cases d with
  | forward =>
    show 0 < if L / 2 ≤ i then 1 else recon_gauss L rl i
    split
    · exact one_pos
    · exact recon_gauss_pos L rl i
  | backward =>
    show 0 < if i < L / 2 then 1 else recon_gauss L rl i
    split
    · exact one_pos
    · exact recon_gauss_pos L rl i
  | interior => exact recon_gauss_pos L rl i

/-- The normalization buffer `xn` of `scale_reconstruction` at time step
`t`: the sum over every slide `k` of that slide's reconstruction-kernel
value at `t` (`xn[window_indices] += recon_filter`), zero where the
slide's window does not contain `t`. -/
noncomputable def xn_buffer (T L S : ℕ) (relative_filter_length : ℚ)
    (t : ℕ) : ℝ :=
  ∑ k ∈ Finset.range (n_slides_nat T L S),
    (if (get_window_indices S L (n_slides_nat T L S)
          (plan_windows T L S).nonIntegerNSlide T k).1 ≤ t ∧
        t < (get_window_indices S L (n_slides_nat T L S)
          (plan_windows T L S).nonIntegerNSlide T k).2 then
      build_kern L relative_filter_length
        (slide_direction k (n_slides_nat T L S))
        (t - (get_window_indices S L (n_slides_nat T L S)
          (plan_windows T L S).nonIntegerNSlide T k).1)
    else 0)

lemma window_coverage {T L S : ℕ} (hS : 0 < S) (hSL : S ≤ L) (hLT : L ≤ T)
    (t : ℕ) (ht : t < T) :
    ∃ k, k < n_slides_nat T L S ∧
      (get_window_indices S L (n_slides_nat T L S)
        (plan_windows T L S).nonIntegerNSlide T k).1 ≤ t ∧
      t < (get_window_indices S L (n_slides_nat T L S)
        (plan_windows T L S).nonIntegerNSlide T k).2 := by
  have hL : 0 < L := lt_of_lt_of_le hS hSL
  have hns := n_slides_nat_eq (S := S) hL hLT
  have hflag := non_integer_iff (S := S) hL hLT
  have hdecomp : S * ((T - L) / S) + (T - L) % S + L = T := by
    have := Nat.div_add_mod (T - L) S
    omega
  have hrS : (T - L) % S < S := Nat.mod_lt _ hS
  obtain ⟨q, hq⟩ : ∃ q, (T - L) / S = q := ⟨_, rfl⟩
  obtain ⟨r, hr⟩ : ∃ r, (T - L) % S = r := ⟨_, rfl⟩
  rw [hq, hr] at hns hdecomp
  rw [hr] at hflag hrS
  have hmul1 : S * (t / S) + t % S = t := Nat.div_add_mod t S
  have htmod : t % S < S := Nat.mod_lt _ hS
  have hexp1 : S * (q + 1) = S * q + S := by ring
  by_cases hr0 : r = 0
  · -- exact tiling: flag off, n_slides = q + 1, all windows step-based
    have hNval : n_slides_nat T L S = q + 1 := by
      rw [hns, if_pos hr0]
    have hflagval : (plan_windows T L S).nonIntegerNSlide = false :=
      Bool.eq_false_iff.mpr (fun hc => (hflag.mp hc) hr0)
    have hwin : ∀ k, get_window_indices S L (n_slides_nat T L S)
        (plan_windows T L S).nonIntegerNSlide T k = (S * k, S * k + L) := by
      intro k
      unfold get_window_indices
      rw [if_neg (fun hcon => by
        rw [hflagval] at hcon
        exact Bool.false_ne_true hcon.2)]
    rcases le_or_lt (t / S) q with htq | htq
    · refine ⟨t / S, ?_, ?_, ?_⟩
      · omega
      · rw [hwin]
        show S * (t / S) ≤ t
        omega
      · rw [hwin]
        show t < S * (t / S) + L
        omega
    · have hmul2 : S * (q + 1) ≤ S * (t / S) :=
        Nat.mul_le_mul (le_refl S) (by omega)
      refine ⟨q, ?_, ?_, ?_⟩
      · omega
      · rw [hwin]
        show S * q ≤ t
        omega
      · rw [hwin]
        show t < S * q + L
        omega
  · -- non-integer tiling: flag on, n_slides = q + 2
    have hNval : n_slides_nat T L S = q + 2 := by
      rw [hns, if_neg hr0]
    have hflagval : (plan_windows T L S).nonIntegerNSlide = true :=
      hflag.mpr hr0
    have hwin : ∀ k, k ≤ q → get_window_indices S L (n_slides_nat T L S)
        (plan_windows T L S).nonIntegerNSlide T k = (S * k, S * k + L) := by
      intro k hkq
      unfold get_window_indices
      rw [if_neg (fun hcon => by omega)]
    by_cases hcase : t < S * q + L
    · rcases le_or_lt (t / S) q with htq | htq
      · refine ⟨t / S, ?_, ?_, ?_⟩
        · omega
        · rw [hwin _ htq]
          show S * (t / S) ≤ t
          omega
        · rw [hwin _ htq]
          show t < S * (t / S) + L
          omega
      · have hmul2 : S * (q + 1) ≤ S * (t / S) :=
          Nat.mul_le_mul (le_refl S) (by omega)
        refine ⟨q, ?_, ?_, ?_⟩
        · omega
        · rw [hwin _ (le_refl q)]
          show S * q ≤ t
          omega
        · rw [hwin _ (le_refl q)]
          show t < S * q + L
          omega
    · -- the appended trailing window [T - L, T) covers t
      have hwinlast : get_window_indices S L (n_slides_nat T L S)
          (plan_windows T L S).nonIntegerNSlide T (q + 1) = (T - L, T) := by
        unfold get_window_indices
        rw [if_pos ⟨by omega, hflagval⟩]
      refine ⟨q + 1, by omega, ?_, ?_⟩
      · rw [hwinlast]
        show T - L ≤ t
        omega
      · rw [hwinlast]
        exact ht

/-- Claim C5: when adjacent windows overlap (`step_size ≤ window_length`),
the normalization buffer accumulated by `scale_reconstruction` is strictly
positive at every time step, so the final elementwise division
`xr_sep / xn` never divides by zero. -/
theorem claim_C5 (T L S : ℕ) (rl : ℚ) (hS : 0 < S) (hSL : S ≤ L)
    (hLT : L ≤ T) : ∀ t, t < T → 0 < xn_buffer T L S rl t := by
  intro t ht
  obtain ⟨k0, hk0, hcov1, hcov2⟩ := window_coverage hS hSL hLT t ht
  unfold xn_buffer
  refine Finset.sum_pos' ?_ ⟨k0, Finset.mem_range.mpr hk0, ?_⟩
  · intro k _
    split
    · exact (build_kern_pos _ _ _ _).le
    · exact le_refl 0
  · rw [if_pos ⟨hcov1, hcov2⟩]
    exact build_kern_pos _ _ _ _

/-- Witness for claim C5 at `T=95, L=10, S=10`, time step `t=3`. -/
theorem claim_C5_witness :
    (0 < 10 ∧ 10 ≤ 10 ∧ 10 ≤ 95 ∧ 3 < 95) ∧
      0 < xn_buffer 95 10 10 2 3 :=
  ⟨by norm_num,
    claim_C5 95 10 10 2 (by norm_num) (by norm_num) (by norm_num) 3
      (by norm_num)⟩

/-! ## xarray serialization (`to_xarray` / `from_xarray`,
`_xarray_sanitize` / `_xarray_unsanitize`) -/

/-- A Python value stored as an xarray Dataset attribute. -/
inductive PyVal where
  | pnone : PyVal
  | pstr : String → PyVal
  | pnum : ℚ → PyVal
  | pbool : Bool → PyVal
  | pset : List String → PyVal
  | plist : List String → PyVal
  | parr : List ℚ → PyVal
  | pcallable : String → PyVal
  deriving DecidableEq

/-- `_xarray_sanitize`: `None` becomes the sentinel string `"None"`, sets
become (ordered) lists, callables become the descriptive string
`"Custom function <name>"`; everything else is stored unaltered. -/
def xarray_sanitize (v : PyVal) : PyVal :=
  match v with
  | .pnone => .pstr "None"
  | .pset l => .plist l
  | .pcallable n => .pstr ("Custom function " ++ n)
  | x => x

/-- `_xarray_unsanitize`: array-likes (values with a `shape` attribute)
are returned unaltered; the string `"None"` decodes to `None`; everything
else is returned unaltered. -/
def xarray_unsanitize (v : PyVal) : PyVal :=
  match v with
  | .parr a => .parr a
  | .pstr s => if s = "None" then .pnone else .pstr s
  | x => x

/-- The per-kwarg restoration in `from_xarray`: unsanitize, and for the
`eig_constraints` key convert the stored list back into a set. -/
def restore_kwarg (key : String) (v : PyVal) : PyVal :=
  if key = "eig_constraints" then
    match xarray_unsanitize v with
    | .plist l => .pset l
    | x => x
  else xarray_unsanitize v

/-- Whether a `PyVal` is a scalar configuration value (not a set, list,
array, or callable). -/
def is_scalar_val (v : PyVal) : Bool :=
  match v with
  | .pnone => true
  | .pstr _ => true
  | .pnum _ => true
  | .pbool _ => true
  | _ => false

/-- The fitted-and-clustered COSTS state that `to_xarray` serializes. -/
structure SerState where
  omega : List (List GaussQ)
  omegaClasses : List (List ℕ)
  amplitudes : List (List GaussQ)
  modes : List (List (List GaussQ))
  windowMeans : List (List ℚ)
  clusterCentroids : List ℚ
  timeArray : List (List ℚ)
  nSlides : ℕ
  svdRank : ℕ
  svdRankPreAllocate : ℕ
  nDataVars : ℕ
  nTimeSteps : ℕ
  nComponents : ℕ
  nonIntegerNSlide : Bool
  stepSize : ℕ
  windowLength : ℕ
  globalSvd : Bool
  relativeFilterLength : ℚ
  kernMethod : String
  transformMethod : PyVal
  pydmdKwargs : List (String × PyVal)
  deriving DecidableEq

/-- The xarray Dataset built by `to_xarray`: data variables and
coordinates hold the numeric arrays verbatim; attributes hold the scalar
configuration, the sanitized transform-method name, and the sanitized
`pydmd_kwargs` entries. -/
structure XrDataset where
  omega : List (List GaussQ)
  omegaClasses : List (List ℕ)
  amplitudes : List (List GaussQ)
  modes : List (List (List GaussQ))
  windowMeans : List (List ℚ)
  clusterCentroids : List ℚ
  timeCoord : List (List ℚ)
  attrSvdRank : ℕ
  attrSvdRankPreAllocate : ℕ
  attrOmegaTransformation : PyVal
  attrNSlides : ℕ
  attrWindowLength : ℕ
  attrNumFrequencyBands : ℕ
  attrNDataVars : ℕ
  attrNTimeSteps : ℕ
  attrStepSize : ℕ
  attrNonIntegerNSlide : Bool
  attrGlobalSvd : Bool
  attrRelativeFilterLength : ℚ
  attrKernMethod : String
  attrPydmdKwargs : List (String × PyVal)
  deriving DecidableEq

/-- `COSTS.to_xarray`. -/
def to_xarray (s : SerState) : XrDataset :=
  ⟨s.omega, s.omegaClasses, s.amplitudes, s.modes, s.windowMeans,
    s.clusterCentroids, s.timeArray, s.svdRank, s.svdRankPreAllocate,
    xarray_sanitize s.transformMethod, s.nSlides, s.windowLength,
    s.nComponents, s.nDataVars, s.nTimeSteps, s.stepSize,
    s.nonIntegerNSlide, s.globalSvd, s.relativeFilterLength, s.kernMethod,
    s.pydmdKwargs.map (fun p => (p.1, xarray_sanitize p.2))⟩

/-- `COSTS.from_xarray`. -/
def from_xarray (ds : XrDataset) : SerState :=
  ⟨ds.omega, ds.omegaClasses, ds.amplitudes, ds.modes, ds.windowMeans,
    ds.clusterCentroids, ds.timeCoord, ds.attrNSlides, ds.attrSvdRank,
    ds.attrSvdRankPreAllocate, ds.attrNDataVars, ds.attrNTimeSteps,
    ds.attrNumFrequencyBands, ds.attrNonIntegerNSlide, ds.attrStepSize,
    ds.attrWindowLength, ds.attrGlobalSvd, ds.attrRelativeFilterLength,
    ds.attrKernMethod, xarray_unsanitize ds.attrOmegaTransformation,
    ds.attrPydmdKwargs.map (fun p => (p.1, restore_kwarg p.1 p.2))⟩

lemma unsanitize_sanitize_scalar (v : PyVal) (hs : is_scalar_val v = true)
    (hn : v ≠ PyVal.pstr "None") :
    xarray_unsanitize (xarray_sanitize v) = v := by
  cases v with
  | pnone => rfl
  | pstr s =>
    have hsne : s ≠ "None" := fun h => hn (by rw [h])
    show (if s = "None" then PyVal.pnone else PyVal.pstr s) = PyVal.pstr s
    rw [if_neg hsne]
  | pnum q => rfl
  | pbool b => rfl
  | pset l => simp [is_scalar_val] at hs
  | plist l => simp [is_scalar_val] at hs
  | parr a => simp [is_scalar_val] at hs
  | pcallable n => simp [is_scalar_val] at hs

lemma restore_sanitize_scalar (k : String) (v : PyVal)
    (hs : is_scalar_val v = true) (hn : v ≠ PyVal.pstr "None") :
    restore_kwarg k (xarray_sanitize v) = v := by
  unfold restore_kwarg
  by_cases hk : k = "eig_constraints"
  · rw [if_pos hk, unsanitize_sanitize_scalar v hs hn]
    cases v with
    | pnone => rfl
    | pstr s => rfl
    | pnum q => rfl
    | pbool b => rfl
    | pset l => simp [is_scalar_val] at hs
    | plist l => simp [is_scalar_val] at hs
    | parr a => simp [is_scalar_val] at hs
    | pcallable n => simp [is_scalar_val] at hs
  · rw [if_neg hk]
    exact unsanitize_sanitize_scalar v hs hn

lemma custom_function_ne_none (n : String) :
    ("Custom function " ++ n) ≠ "None" := by
  intro h
  have hl := congrArg String.length h
  rw [String.length_append] at hl
  have h16 : ("Custom function ").length = 16 := rfl
  have h4 : ("None").length = 4 := rfl
  omega

/-- Claim C6 (amended): `to_xarray` then `from_xarray` reproduces every
numeric array exactly and every scalar configuration attribute exactly;
a scalar-valued `pydmd_kwargs` entry other than the literal sentinel
string `"None"` (and likewise a scalar non-sentinel transform-method
value) round trips unchanged, and a callable-valued entry is stored as
the descriptive string `"Custom function <name>"`, not recovered. -/
theorem claim_C6_amended (s : SerState) :
    (from_xarray (to_xarray s)).omega = s.omega ∧
    (from_xarray (to_xarray s)).omegaClasses = s.omegaClasses ∧
    (from_xarray (to_xarray s)).amplitudes = s.amplitudes ∧
    (from_xarray (to_xarray s)).modes = s.modes ∧
    (from_xarray (to_xarray s)).windowMeans = s.windowMeans ∧
    (from_xarray (to_xarray s)).clusterCentroids = s.clusterCentroids ∧
    (from_xarray (to_xarray s)).timeArray = s.timeArray ∧
    (from_xarray (to_xarray s)).nSlides = s.nSlides ∧
    (from_xarray (to_xarray s)).svdRank = s.svdRank ∧
    (from_xarray (to_xarray s)).svdRankPreAllocate =
      s.svdRankPreAllocate ∧
    (from_xarray (to_xarray s)).nDataVars = s.nDataVars ∧
    (from_xarray (to_xarray s)).nTimeSteps = s.nTimeSteps ∧
    (from_xarray (to_xarray s)).nComponents = s.nComponents ∧
    (from_xarray (to_xarray s)).nonIntegerNSlide = s.nonIntegerNSlide ∧
    (from_xarray (to_xarray s)).stepSize = s.stepSize ∧
    (from_xarray (to_xarray s)).windowLength = s.windowLength ∧
    (from_xarray (to_xarray s)).globalSvd = s.globalSvd ∧
    (from_xarray (to_xarray s)).relativeFilterLength =
      s.relativeFilterLength ∧
    (from_xarray (to_xarray s)).kernMethod = s.kernMethod ∧
    (is_scalar_val s.transformMethod = true →
      s.transformMethod ≠ PyVal.pstr "None" →
      (from_xarray (to_xarray s)).transformMethod = s.transformMethod) ∧
    (∀ k v, (k, v) ∈ s.pydmdKwargs → is_scalar_val v = true →
      v ≠ PyVal.pstr "None" →
      (k, v) ∈ (from_xarray (to_xarray s)).pydmdKwargs) ∧
    (∀ k n, (k, PyVal.pcallable n) ∈ s.pydmdKwargs →
      (k, PyVal.pstr ("Custom function " ++ n)) ∈
        (from_xarray (to_xarray s)).pydmdKwargs) := by
  refine ⟨rfl, rfl, rfl, rfl, rfl, rfl, rfl, rfl, rfl, rfl, rfl, rfl, rfl,
    rfl, rfl, rfl, rfl, rfl, rfl, ?_, ?_, ?_⟩
  · intro hs hn
    exact unsanitize_sanitize_scalar s.transformMethod hs hn
  · intro k v hmem hs hn
    have hmap : (from_xarray (to_xarray s)).pydmdKwargs =
        s.pydmdKwargs.map
          (fun p => (p.1, restore_kwarg p.1 (xarray_sanitize p.2))) := by
      show (s.pydmdKwargs.map (fun p => (p.1, xarray_sanitize p.2))).map
          (fun p => (p.1, restore_kwarg p.1 p.2)) = _
      rw [List.map_map]
      rfl
    rw [hmap]
    have h := List.mem_map_of_mem
      (fun p : String × PyVal => (p.1, restore_kwarg p.1 (xarray_sanitize p.2)))
      hmem
    simpa [restore_sanitize_scalar k v hs hn] using h
  · intro k n hmem
    have hmap : (from_xarray (to_xarray s)).pydmdKwargs =
        s.pydmdKwargs.map
          (fun p => (p.1, restore_kwarg p.1 (xarray_sanitize p.2))) := by
      show (s.pydmdKwargs.map (fun p => (p.1, xarray_sanitize p.2))).map
          (fun p => (p.1, restore_kwarg p.1 p.2)) = _
      rw [List.map_map]
      rfl
    rw [hmap]
    have h := List.mem_map_of_mem
      (fun p : String × PyVal => (p.1, restore_kwarg p.1 (xarray_sanitize p.2)))
      hmem
    have ustep : xarray_unsanitize (PyVal.pstr ("Custom function " ++ n)) =
        PyVal.pstr ("Custom function " ++ n) := by
      show (if ("Custom function " ++ n) = "None" then PyVal.pnone
        else PyVal.pstr ("Custom function " ++ n)) =
        PyVal.pstr ("Custom function " ++ n)
      rw [if_neg (custom_function_ne_none n)]
    have hval : restore_kwarg k (xarray_sanitize (PyVal.pcallable n)) =
        PyVal.pstr ("Custom function " ++ n) := by
      show restore_kwarg k (PyVal.pstr ("Custom function " ++ n)) = _
      unfold restore_kwarg
      by_cases hk : k = "eig_constraints"
      · rw [if_pos hk, ustep]
      · rw [if_neg hk, ustep]
    simpa [hval] using h

/-- A fitted state whose `pydmd_kwargs` holds the scalar string value
`"None"`, used to refute the literal round-trip claim. -/
def ser_state_ex : SerState :=
  ⟨[], [], [], [], [], [], [], 0, 0, 0, 0, 0, 0, false, 0, 0, true, 2,
    "kern", PyVal.pstr "absolute", [("eig_sort", PyVal.pstr "None")]⟩

/-- Counterexample to claim C6 as stated: the non-callable scalar
configuration value `"None"` (a string) is decoded by `from_xarray` to
the absent value `None`, so it is not reproduced equal. -/
theorem claim_C6_counterexample :
    (from_xarray (to_xarray ser_state_ex)).pydmdKwargs =
        [("eig_sort", PyVal.pnone)] ∧
      is_scalar_val (PyVal.pstr "None") = true ∧
      PyVal.pnone ≠ PyVal.pstr "None" := by
  refine ⟨?_, rfl, by decide⟩
  rfl

/-- A concrete fitted state with string-, boolean- and absent-valued
kwargs, used by the claim C6 witness. -/
def ser_state_witness : SerState :=
  ⟨[[⟨1, 2⟩]], [[0]], [[⟨3, 4⟩]], [[[⟨5, 6⟩]]], [[7]], [1], [[0]],
    1, 2, 2, 1, 1, 1, false, 1, 1, true, 2, "kern",
    PyVal.pstr "absolute",
    [("eig_sort", PyVal.pstr "imag"), ("use_proj", PyVal.pbool false),
      ("proj_basis", PyVal.pnone)]⟩

/-- Witness for claim C6 (amended) at a concrete state with a boolean
kwarg. -/
theorem claim_C6_witness :
    ((("use_proj", PyVal.pbool false) ∈ ser_state_witness.pydmdKwargs ∧
        is_scalar_val (PyVal.pbool false) = true ∧
        PyVal.pbool false ≠ PyVal.pstr "None") ∧
      (from_xarray (to_xarray ser_state_witness)).omega =
        ser_state_witness.omega ∧
      ("use_proj", PyVal.pbool false) ∈
        (from_xarray (to_xarray ser_state_witness)).pydmdKwargs) := by
  have h := claim_C6_amended ser_state_witness
  obtain ⟨h1, -, -, -, -, -, -, -, -, -, -, -, -, -, -, -, -, -, -, -,
    hkw, -⟩ := h
  exact ⟨⟨by decide, rfl, by decide⟩, h1,
    hkw "use_proj" (PyVal.pbool false) (by decide) rfl (by decide)⟩

/-! ## `cluster_omega` / `_cluster`: state effect -/

/-- The COSTS instance state relevant to `cluster_omega`: the fit results
and window geometry produced by `fit`, the clustering results, and the
plotting helpers `_omega_label` / `_hist_kwargs` set by
`transform_omega`. -/
structure FitState where
  omegaArr : List (List GaussQ)
  modesArr : List (List (List GaussQ))
  amplitudesArr : List (List GaussQ)
  timeArr : List (List ℚ)
  windowMeansArr : List (List ℚ)
  nSlides : ℕ
  windowLength : ℕ
  stepSize : ℕ
  svdRankPreAllocate : ℕ
  clusterCentroidsF : Option (List ℚ)
  omegaClassesF : Option (List ℕ)
  transformMethodF : Option String
  nComponentsF : Option ℕ
  omegaLabel : Option String
  histKwargsBins : Option ℕ
  deriving DecidableEq

/-- The `_omega_label` string set by each `transform_omega` branch. -/
def transform_label (method : String) : Option String :=
  if method = "absolute" then some "$|\\omega|$"
  else if method = "square_frequencies" then some "$|\\omega|^\x7b2\x7d$"
  else if method = "log10" then some "$log_\x7b10\x7d(|\\omega|)$"
  else if method = "period" then some "Period"
  else none

/-- `transform_omega` as a state transformer: computes the transformed
values and, on success, overwrites the instance fields `_omega_label` and
`_hist_kwargs` (always 64 bins); on an unsupported method it raises
before touching the state. -/
noncomputable def transform_omega_state (st : FitState)
    (omega : List GaussQ) (method : String) :
    Except String (List (Option ℝ) × FitState) :=
  match transform_omega_vals method omega with
  | .error e => .error e
  | .ok vals => .ok (vals,
      ⟨st.omegaArr, st.modesArr, st.amplitudesArr, st.timeArr,
        st.windowMeansArr, st.nSlides, st.windowLength, st.stepSize,
        st.svdRankPreAllocate, st.clusterCentroidsF, st.omegaClassesF,
        st.transformMethodF, st.nComponentsF,
        transform_label method, some 64⟩)

/-- `cluster_omega`: flatten the omega array, transform it, delegate to
the clustering capability (`cluster_fn`, returning integer labels and
per-cluster centroids), canonicalize via argsort as in `_cluster`, and
assign the centroid, classification, transform-method and band-count
fields of the instance. -/
noncomputable def cluster_omega_model (st : FitState) (n_components : ℕ)
    (method : String)
    (cluster_fn : List (Option ℝ) → ℕ → List ℕ × List ℚ) :
    Except String FitState :=
  match transform_omega_state st st.omegaArr.flatten method with
  | .error e => .error e
  | .ok (vals, st1) =>
    .ok ⟨st1.omegaArr, st1.modesArr, st1.amplitudesArr, st1.timeArr,
      st1.windowMeansArr, st1.nSlides, st1.windowLength, st1.stepSize,
      st1.svdRankPreAllocate,
      some (sorted_centroids (cluster_fn vals n_components).2),
      some ((cluster_fn vals n_components).1.map
        (lut_nat (cluster_fn vals n_components).2)),
      some method, some n_components, st1.omegaLabel, st1.histKwargsBins⟩

/-- Claim C10 (amended): a successful `cluster_omega` call leaves every
fit result and window-geometry field unchanged; it overwrites only the
cluster centroids, omega classifications, transform-method name, band
count, and additionally the plotting helper fields `_omega_label` and
`_hist_kwargs` (set inside `transform_omega`). -/
theorem claim_C10_amended (st : FitState) (n : ℕ) (method : String)
    (cluster_fn : List (Option ℝ) → ℕ → List ℕ × List ℚ) (st2 : FitState)
    (h : cluster_omega_model st n method cluster_fn = Except.ok st2) :
    st2.omegaArr = st.omegaArr ∧ st2.modesArr = st.modesArr ∧
    st2.amplitudesArr = st.amplitudesArr ∧ st2.timeArr = st.timeArr ∧
    st2.windowMeansArr = st.windowMeansArr ∧ st2.nSlides = st.nSlides ∧
    st2.windowLength = st.windowLength ∧ st2.stepSize = st.stepSize ∧
    st2.svdRankPreAllocate = st.svdRankPreAllocate ∧
    st2.transformMethodF = some method ∧ st2.nComponentsF = some n ∧
    st2.omegaLabel = transform_label method ∧
    st2.histKwargsBins = some 64 ∧
    (∃ (labels : List ℕ) (centroids : List ℚ),
      st2.clusterCentroidsF = some (sorted_centroids centroids) ∧
      st2.omegaClassesF = some (labels.map (lut_nat centroids))) := by
  unfold cluster_omega_model transform_omega_state at h
  cases htv : transform_omega_vals method st.omegaArr.flatten with
  | error e =>
    rw [htv] at h
    cases h
  | ok vals =>
    rw [htv] at h
    have h2 := Except.ok.inj h
    subst h2
    exact ⟨rfl, rfl, rfl, rfl, rfl, rfl, rfl, rfl, rfl, rfl, rfl, rfl,
      rfl, (cluster_fn vals n).1, (cluster_fn vals n).2, rfl, rfl⟩

/-- The concrete clustering capability used by the C10 theorems: one
cluster with centroid 1, every point labeled 0. -/
def cluster_fn_ex : List (Option ℝ) → ℕ → List ℕ × List ℚ :=
  fun _ _ => ([0], [1])

/-- A concrete fitted state before any clustering (`_omega_label` is still
`None` from `__init__`). -/
def fit_state_ex : FitState :=
  ⟨[[⟨0, 1⟩]], [[[⟨1, 0⟩]]], [[⟨2, 0⟩]], [[0]], [[3]],
    1, 1, 1, 1, none, none, none, none, none, none⟩

/-- The state after `cluster_omega` on `fit_state_ex` with the
`"absolute"` transform and `cluster_fn_ex`. -/
def fit_state_ex_out : FitState :=
  ⟨[[⟨0, 1⟩]], [[[⟨1, 0⟩]]], [[⟨2, 0⟩]], [[0]], [[3]],
    1, 1, 1, 1, some [1], some [0], some "absolute", some 1,
    some "$|\\omega|$", some 64⟩

/-- Counterexample to claim C10 as stated: `cluster_omega` also
overwrites `_omega_label` (via `transform_omega`), a field outside the
four the claim allows, changing it from `None` to the transform label. -/
theorem claim_C10_counterexample :
    cluster_omega_model fit_state_ex 1 "absolute" cluster_fn_ex =
        Except.ok fit_state_ex_out ∧
      fit_state_ex_out.omegaLabel ≠ fit_state_ex.omegaLabel := by
  refine ⟨rfl, by decide⟩

/-- Witness for claim C10 (amended) at the concrete state
`fit_state_ex`. -/
theorem claim_C10_witness :
    cluster_omega_model fit_state_ex 1 "absolute" cluster_fn_ex =
        Except.ok fit_state_ex_out ∧
      (fit_state_ex_out.omegaArr = fit_state_ex.omegaArr ∧
        fit_state_ex_out.modesArr = fit_state_ex.modesArr ∧
        fit_state_ex_out.amplitudesArr = fit_state_ex.amplitudesArr ∧
        fit_state_ex_out.timeArr = fit_state_ex.timeArr ∧
        fit_state_ex_out.windowMeansArr = fit_state_ex.windowMeansArr ∧
        fit_state_ex_out.nSlides = fit_state_ex.nSlides ∧
        fit_state_ex_out.windowLength = fit_state_ex.windowLength ∧
        fit_state_ex_out.stepSize = fit_state_ex.stepSize ∧
        fit_state_ex_out.svdRankPreAllocate =
          fit_state_ex.svdRankPreAllocate ∧
        fit_state_ex_out.transformMethodF = some "absolute" ∧
        fit_state_ex_out.nComponentsF = some 1 ∧
        fit_state_ex_out.omegaLabel = transform_label "absolute" ∧
        fit_state_ex_out.histKwargsBins = some 64 ∧
        (∃ (labels : List ℕ) (centroids : List ℚ),
          fit_state_ex_out.clusterCentroidsF =
            some (sorted_centroids centroids) ∧
          fit_state_ex_out.omegaClassesF =
            some (labels.map (lut_nat centroids)))) :=
  ⟨rfl, claim_C10_amended fit_state_ex 1 "absolute" cluster_fn_ex
    fit_state_ex_out rfl⟩
